import Mathlib

/-
Shallow embedding of the renderer's pure decision logic from the scop
repository (Rust, ash/Vulkan): swapchain parameter selection
(src/vulkan/swapchain.rs), physical-device scoring and selection
(src/vulkan/physical_device.rs), memory-type resolution
(src/vulkan/buffer.rs), the per-frame scheduler step
(src/vulkan/context.rs) and synchronization-object creation
(src/vulkan/sync.rs).  Machine integers are modelled as Nat/Int with
explicit wrapping where the Rust code can overflow.
-/

namespace Scop

/-- Truncation to an unsigned 32-bit value (Rust u32 wrapping). -/
def u32 (n : Nat) : Nat := n % 2 ^ 32

/-- Reinterpretation of a u32 value as an i32 (Rust `as i32` cast). -/
def i32ofU32 (n : Nat) : Int := if n < 2 ^ 31 then (n : Int) else (n : Int) - 2 ^ 32

/-- Wrap-around of a mathematical integer into the i32 range
(Rust release-mode wrapping addition). -/
def i32wrap (z : Int) : Int := (z + 2 ^ 31) % 2 ^ 32 - 2 ^ 31

/-- Swapchain image-count selection, from `VkSwapchain::new`
(src/vulkan/swapchain.rs lines 40-44, identical code in src/vulkan.rs):
`std::cmp::min(capabilities.max_image_count, capabilities.min_image_count + 1)
   .max(capabilities.min_image_count + 1)`.
Both capability fields are u32. -/
def image_count (min_image_count max_image_count : Nat) : Nat :=
  Nat.max (Nat.min max_image_count (u32 (min_image_count + 1))) (u32 (min_image_count + 1))

/-- A Vulkan surface format: a pixel format paired with a color space,
mirroring `vk::SurfaceFormatKHR` as used in src/vulkan/swapchain.rs. -/
structure SurfaceFormatKHR where
  format : Nat
  color_space : Nat
deriving DecidableEq

/-- Numeric value of `vk::Format::B8G8R8A8_SRGB`. -/
def B8G8R8A8_SRGB : Nat := 50

/-- Numeric value of `vk::Format::R8G8B8A8_UNORM`. -/
def R8G8B8A8_UNORM : Nat := 37

/-- Numeric value of `vk::ColorSpaceKHR::SRGB_NONLINEAR`. -/
def SRGB_NONLINEAR : Nat := 0

/-- The preferred surface format tested by the selection loop in
`VkSwapchain::choose_surface_format`. -/
def preferredFormat (f : SurfaceFormatKHR) : Bool :=
  f.format == B8G8R8A8_SRGB && f.color_space == SRGB_NONLINEAR

/-- The scan loop of `VkSwapchain::choose_surface_format`
(src/vulkan/swapchain.rs lines 113-119): return the first format that is
B8G8R8A8_SRGB with SRGB_NONLINEAR color space. -/
def findPreferred : List SurfaceFormatKHR → Option SurfaceFormatKHR
  | [] => none
  | f :: rest => if preferredFormat f then some f else findPreferred rest

/-- `VkSwapchain::choose_surface_format` (src/vulkan/swapchain.rs lines
110-122): the loop above, falling back to `available_formats[0]`.  The Rust
code indexes an empty list out of bounds (panic); that case is `none` here. -/
def choose_surface_format (available_formats : List SurfaceFormatKHR) :
    Option SurfaceFormatKHR :=
  match findPreferred available_formats with
  | some f => some f
  | none => available_formats.head?

/-- Loop body of `VkBuffer::find_memory_type` (src/vulkan/buffer.rs lines
216-223): starting at index `i`, scan the remaining memory-type property
flags; return the first index whose bit is set in `type_filter` and whose
flags contain `properties`. -/
def find_memory_type_loop (type_filter properties : Nat) :
    Nat → List Nat → Option Nat
  | _, [] => none
  | i, flags :: rest =>
    if type_filter &&& (1 <<< i) ≠ 0 ∧ flags &&& properties = properties
    then some i
    else find_memory_type_loop type_filter properties (i + 1) rest

/-- `VkBuffer::find_memory_type` (src/vulkan/buffer.rs lines 204-226):
scan the device's memory types in index order; `Err` when no index
matches.  `memory_types` is the list of property-flag words of the
device's memory-type table (at most 32 entries in Vulkan). -/
def find_memory_type (type_filter properties : Nat) (memory_types : List Nat) :
    Except String Nat :=
  match find_memory_type_loop type_filter properties 0 memory_types with
  | some i => Except.ok i
  | none => Except.error "Failed to find suitable memory type"

/-- Specification predicate: index `i` is acceptable to
`find_memory_type` with the given filter and required properties. -/
def memSuitable (type_filter properties : Nat) (memory_types : List Nat)
    (i : Nat) : Prop :=
  i < memory_types.length ∧ type_filter &&& (1 <<< i) ≠ 0 ∧
    (memory_types.getD i 0) &&& properties = properties

instance (tf props : Nat) (mts : List Nat) (i : Nat) :
    Decidable (memSuitable tf props mts i) := by
  unfold memSuitable; infer_instance

/-- The per-adapter data read by `VkPhysicalDevice::choose_physical_device`
(src/vulkan/physical_device.rs): device properties (type and
`max_image_dimension2_d`, a u32 limit), the geometry-shader feature bit,
the queue-family resolution result, and the suitability queries (swapchain
device extension present, surface format / present mode lists non-empty). -/
structure PhysDev where
  device_type_discrete : Bool
  max_image_dimension2_d : Nat
  geometry_shader : Bool
  graphics_family : Option Nat
  has_device_extensions : Bool
  formats_nonempty : Bool
  present_modes_nonempty : Bool
deriving DecidableEq

/-- `VkPhysicalDevice::rate_device` (src/vulkan/physical_device.rs lines
86-109): an i32 score accumulates +1000 for a discrete GPU and
`max_image_dimension2_d as i32`; the function returns 0 when the
geometry-shader feature is missing or no graphics queue family exists. -/
def rate_device (d : PhysDev) : Int :=
  let score : Int := if d.device_type_discrete then 1000 else 0
  let score : Int := i32wrap (score + i32ofU32 (u32 d.max_image_dimension2_d))
  if d.geometry_shader = false ∨ d.graphics_family = none then 0 else score

/-- `VkPhysicalDevice::is_device_suitable` (src/vulkan/physical_device.rs
lines 111-138): the swapchain device extension is present, a graphics queue
family exists, and the surface-format and present-mode lists are non-empty. -/
def is_device_suitable (d : PhysDev) : Bool :=
  d.has_device_extensions && d.graphics_family.isSome &&
    d.formats_nonempty && d.present_modes_nonempty

/-- An adapter that enters the candidate map: positive score and suitable
(the two nested conditions at lines 71-75 of physical_device.rs). -/
def eligible (d : PhysDev) : Prop :=
  0 < rate_device d ∧ is_device_suitable d = true

instance (d : PhysDev) : Decidable (eligible d) := by
  unfold eligible; infer_instance

/-- Insertion into the `BTreeMap<i32, _>` of candidates, modelled as an
association list sorted by strictly ascending key: inserting an existing
key replaces its value (Rust `BTreeMap::insert` semantics). -/
def insertCand : List (Int × PhysDev) → Int × PhysDev → List (Int × PhysDev)
  | [], kv => [kv]
  | (k, v) :: rest, kv =>
    if kv.1 < k then kv :: (k, v) :: rest
    else if kv.1 = k then kv :: rest
    else (k, v) :: insertCand rest kv

/-- The candidate map built by the enumeration loop of
`choose_physical_device` (src/vulkan/physical_device.rs lines 61-76):
each device with positive score that passes `is_device_suitable` is
inserted keyed by its score. -/
def build_candidates (ds : List PhysDev) : List (Int × PhysDev) :=
  ds.foldl
    (fun m d =>
      if 0 < rate_device d ∧ is_device_suitable d = true
      then insertCand m (rate_device d, d)
      else m)
    []

/-- `VkPhysicalDevice::choose_physical_device` (src/vulkan/physical_device.rs
lines 30-84): error on an empty enumeration, otherwise take the entry with
the greatest key of the candidate map (`candidates.iter().rev().next()`),
error when the map is empty. -/
def choose_physical_device (ds : List PhysDev) : Except String PhysDev :=
  if ds.isEmpty then
    Except.error "No Vulkan-compatible physical devices found."
  else
    match (build_candidates ds).getLast? with
    | some (_, d) => Except.ok d
    | none => Except.error "Failed to find a suitable GPU."

/-- Replacement rule of a BTreeMap insert as seen by the maximal entry:
the new maximal entry is the inserted pair when its key is at least the
old maximal key, the old maximal entry otherwise. -/
def latestO (b : Option (Int × PhysDev)) (kv : Int × PhysDev) : Int × PhysDev :=
  match b with
  | none => kv
  | some last => if last.1 ≤ kv.1 then kv else last

/-- Step of the reference fold tracking only the maximal candidate entry. -/
def bestStep (b : Option (Int × PhysDev)) (d : PhysDev) : Option (Int × PhysDev) :=
  if 0 < rate_device d ∧ is_device_suitable d = true
  then some (latestO b (rate_device d, d))
  else b

/-- Reference selection: the maximal candidate entry after scanning the
whole enumeration, favouring later devices on equal scores. -/
def bestSoFar (ds : List PhysDev) : Option (Int × PhysDev) :=
  ds.foldl bestStep none

/-- `MAX_FRAMES_IN_FLIGHT` (src/vulkan/mod.rs line 40). -/
def MAX_FRAMES_IN_FLIGHT : Nat := 2

/-- Observable state of a Vulkan fence at a call boundary of the
single-threaded frame loop: `signaled`, or `pending` (the fence was reset
and work signalling it was submitted, and completion has not yet been
observed by a wait). -/
inductive FenceSt
  | signaled
  | pending
deriving DecidableEq

/-- The per-frame fence array of `VkSyncObjects::new` (src/vulkan/sync.rs
lines 21-55): the creation loop pushes `MAX_FRAMES_IN_FLIGHT` fences, each
created with `vk::FenceCreateFlags::SIGNALED`. -/
def VkSyncObjects_new_fences : List FenceSt :=
  List.replicate MAX_FRAMES_IN_FLIGHT FenceSt.signaled

/-- The mutable state of `VkContext` read and written by `draw_frame`:
the frame-slot index (`self.frame`) and the per-slot fences. -/
structure DrawState where
  frame : Nat
  fences : List FenceSt
deriving DecidableEq

/-- The `VkContext` state at construction (src/vulkan/context.rs lines
133-153: `frame: 0`, fences from `VkSyncObjects::new`). -/
def initDrawState : DrawState :=
  { frame := 0, fences := VkSyncObjects_new_fences }

/-- Outcome of `acquire_next_image` as matched by `draw_frame`
(src/vulkan/context.rs lines 386-400): success carries an image index and
the suboptimal flag; `ERROR_OUT_OF_DATE_KHR` and all other errors are the
two error arms. -/
inductive AcquireResult
  | success (idx : Nat) (subopt : Bool)
  | outOfDate
  | otherErr
deriving DecidableEq

/-- The externally visible actions performed by one `draw_frame` call, in
program order. -/
inductive Ev
  | waitFence (slot : Nat) (blocked : Bool)
  | acquireImage
  | recreateSwapchain
  | updateUniform (slot : Nat)
  | resetFence (slot : Nat)
  | resetCommandBuffer (slot : Nat)
  | recordCB (slot : Nat) (imageIndex : Nat)
  | submit (slot : Nat)
  | present (imageIndex : Nat)
deriving DecidableEq

/-- Effect of `wait_for_fences` on the current slot: the wait blocks
exactly when the slot's fence is pending, and afterwards the fence is
signaled. -/
def fenceWait (fs : List FenceSt) (slot : Nat) : List FenceSt × Bool :=
  (fs.set slot FenceSt.signaled, fs.getD slot FenceSt.signaled == FenceSt.pending)

/-- `VkContext::draw_frame` (src/vulkan/context.rs lines 367-462) as a step
function: wait on the current slot's fence, acquire; on
`ERROR_OUT_OF_DATE_KHR` or a suboptimal success, recreate the swapchain and
return early; otherwise update the uniform buffer, reset the fence, reset
and re-record the command buffer, submit (the fence becomes pending),
present, and advance `frame` modulo `MAX_FRAMES_IN_FLIGHT`.  Any other
acquire error panics (`none`). -/
def draw_frame (s : DrawState) (acq : AcquireResult) :
    Option (DrawState × List Ev) :=
  let fences1 := (fenceWait s.fences s.frame).1
  let blocked := (fenceWait s.fences s.frame).2
  let evs0 := [Ev.waitFence s.frame blocked, Ev.acquireImage]
  match acq with
  | AcquireResult.success idx subopt =>
    if subopt then
      some ({ frame := s.frame, fences := fences1 },
            evs0 ++ [Ev.recreateSwapchain])
    else
      some ({ frame := (s.frame + 1) % MAX_FRAMES_IN_FLIGHT,
              fences := fences1.set s.frame FenceSt.pending },
            evs0 ++
              [Ev.updateUniform s.frame, Ev.resetFence s.frame,
               Ev.resetCommandBuffer s.frame, Ev.recordCB s.frame idx,
               Ev.submit s.frame, Ev.present idx])
  | AcquireResult.outOfDate =>
    some ({ frame := s.frame, fences := fences1 },
          evs0 ++ [Ev.recreateSwapchain])
  | AcquireResult.otherErr => none

/-- The frame-advance step (src/vulkan/context.rs line 461):
`self.frame = (self.frame + 1) % MAX_FRAMES_IN_FLIGHT`. -/
def advance_frame (f : Nat) : Nat := (f + 1) % MAX_FRAMES_IN_FLIGHT

/-- The wait/submit records of a run, used to relate a blocking wait to
the submissions that precede it. -/
inductive CallRec
  | waited (slot : Nat) (blocked : Bool)
  | submitted (slot : Nat)
deriving DecidableEq

/-- Projection of a `draw_frame` action onto its wait/submit record. -/
def evToRec : Ev → Option CallRec
  | Ev.waitFence slot blocked => some (CallRec.waited slot blocked)
  | Ev.submit slot => some (CallRec.submitted slot)
  | _ => none

/-- Sequential execution of `draw_frame` over a list of acquire outcomes,
accumulating the wait/submit history. -/
def runHist (s : DrawState) : List AcquireResult →
    Option (DrawState × List CallRec)
  | [] => some (s, [])
  | a :: rest =>
    match draw_frame s a with
    | none => none
    | some (s1, evs) =>
      match runHist s1 rest with
      | none => none
      | some (st, h) => some (st, evs.filterMap evToRec ++ h)

/-- A history is well-blocked relative to a set of already-submitted slots:
every blocking wait is on a slot that received a submission earlier in the
history. -/
def goodHist : List CallRec → List Nat → Prop
  | [], _ => True
  | CallRec.waited slot true :: rest, subs => slot ∈ subs ∧ goodHist rest subs
  | CallRec.waited _ false :: rest, subs => goodHist rest subs
  | CallRec.submitted slot :: rest, subs => goodHist rest (slot :: subs)

instance : ∀ (h : List CallRec) (subs : List Nat), Decidable (goodHist h subs)
  | [], _ => by unfold goodHist; infer_instance
  | CallRec.waited slot true :: rest, subs => by
      unfold goodHist
      have := fun s => instDecidableGoodHist rest s
      infer_instance
  | CallRec.waited _ false :: rest, subs => by
      unfold goodHist
      exact instDecidableGoodHist rest subs
  | CallRec.submitted slot :: rest, subs => by
      unfold goodHist
      exact instDecidableGoodHist rest (slot :: subs)

/-- A GPU buffer as stored by `VkBuffer::new` (src/vulkan/buffer.rs lines
79-84): the `size` field records `data.len()`, the element count of the
uploaded slice, not the byte size `size_of::<f32>() * data.len()` used for
allocation. -/
structure VkBuffer where
  size : Nat
deriving DecidableEq

/-- `VkBuffer::new` (src/vulkan/buffer.rs lines 14-85), restricted to the
struct it returns: staging upload and copy are performed for
`4 * data.length` bytes, and the stored size is `data.length`. -/
def VkBuffer_new {α : Type} (data : List α) : VkBuffer :=
  { size := data.length }

/-- Byte size of the staging and target buffers created by
`VkBuffer::new` (line 23): `size_of::<f32>() * data.len()`. -/
def VkBuffer_new_byte_size {α : Type} (data : List α) : Nat :=
  4 * data.length

/-- The commands recorded into a command buffer by
`VkContext::record_command_buffer`. -/
inductive Cmd
  | beginCB
  | beginRenderPass (framebuffer : Nat) (extentW extentH : Nat)
  | bindPipeline
  | bindVertexBuffer
  | bindIndexBuffer
  | setViewport (w h : Nat)
  | setScissor (w h : Nat)
  | bindDescriptorSets (slot : Nat)
  | drawIndexed (indexCount instanceCount firstIndex vertexOffset firstInstance : Nat)
  | endRenderPass
  | endCB
deriving DecidableEq

/-- The fields of `VkContext` read by `record_command_buffer`. -/
structure RecordCtx where
  frame : Nat
  index_buffer : VkBuffer
  framebuffers : List Nat
  extent_w : Nat
  extent_h : Nat
deriving DecidableEq

/-- `VkContext::record_command_buffer` (src/vulkan/context.rs lines
464-584): begin, render pass against the framebuffer of the acquired image
index, bind pipeline / vertex buffer / index buffer, set viewport and
scissor to the swapchain extent, bind the current frame's descriptor set,
one `cmd_draw_indexed(self.index_buffer.size as u32, 1, 0, 0, 0)`, end. -/
def record_command_buffer (ctx : RecordCtx) (image_index : Nat) : List Cmd :=
  [Cmd.beginCB,
   Cmd.beginRenderPass (ctx.framebuffers.getD image_index 0) ctx.extent_w ctx.extent_h,
   Cmd.bindPipeline,
   Cmd.bindVertexBuffer,
   Cmd.bindIndexBuffer,
   Cmd.setViewport ctx.extent_w ctx.extent_h,
   Cmd.setScissor ctx.extent_w ctx.extent_h,
   Cmd.bindDescriptorSets ctx.frame,
   Cmd.drawIndexed (u32 ctx.index_buffer.size) 1 0 0 0,
   Cmd.endRenderPass,
   Cmd.endCB]

/-- Test for an indexed-draw command. -/
def isDrawCmd : Cmd → Bool
  | Cmd.drawIndexed _ _ _ _ _ => true
  | _ => false

/-- Handle of the image view created for a swapchain image by
`create_image_view` (handles are opaque; the image's token is reused). -/
def create_image_view (image : Nat) : Nat := image

/-- `VkSwapchain::create_image_views` (src/vulkan/swapchain.rs lines
157-172): the loop pushes one image view per swapchain image. -/
def create_image_views (images : List Nat) : List Nat :=
  images.foldl (fun acc image => acc ++ [create_image_view image]) []

/-- The swapchain-owned containers of `VkSwapchain`
(src/vulkan/swapchain.rs lines 8-21), with the depth view handle. -/
structure VkSwapchainSt where
  images : List Nat
  image_views : List Nat
  framebuffers : List Nat
  depth_image_view : Nat
deriving DecidableEq

/-- `VkSwapchain::new` (src/vulkan/swapchain.rs lines 24-108), restricted
to its containers: the driver reports `images`, one view is created per
image, and `framebuffers` starts empty (`Vec::new()`). -/
def VkSwapchain_new (images : List Nat) : VkSwapchainSt :=
  { images := images
    image_views := create_image_views images
    framebuffers := []
    depth_image_view := 0 }

/-- Handle of the framebuffer created for a color view and the depth view. -/
def create_framebuffer (color_view depth_view : Nat) : Nat := color_view + depth_view

/-- `VkSwapchain::create_depth_ressources` (src/vulkan/swapchain.rs lines
174-196): allocates the depth image and sets its view handle. -/
def create_depth_ressources (s : VkSwapchainSt) : VkSwapchainSt :=
  { s with depth_image_view := 1 }

/-- `VkSwapchain::create_framebuffers` (src/vulkan/swapchain.rs lines
198-227): the loop pushes one framebuffer per stored image view onto the
existing `framebuffers` vector. -/
def create_framebuffers (s : VkSwapchainSt) : VkSwapchainSt :=
  { s with
    framebuffers :=
      s.image_views.foldl
        (fun acc v => acc ++ [create_framebuffer v s.depth_image_view])
        s.framebuffers }

/-- `VkSwapchain::cleanup` (src/vulkan/swapchain.rs lines 229-245): the
handles destroyed, in order (all framebuffers, then all image views, then
the swapchain object, elided). -/
def cleanup_destroyed (s : VkSwapchainSt) : List Nat :=
  s.framebuffers ++ s.image_views

/-- `VkSwapchain::recreate` (src/vulkan/swapchain.rs lines 247-270): after
`device_wait_idle`, clean up the old instance, then build a fresh swapchain
(`new`, `create_depth_ressources`, `create_framebuffers`) and replace
`self` with it.  Returns the destroyed handles and the new state. -/
def recreate (s : VkSwapchainSt) (newImages : List Nat) :
    List Nat × VkSwapchainSt :=
  (cleanup_destroyed s,
   create_framebuffers (create_depth_ressources (VkSwapchain_new newImages)))

/-- The surface format preferred by `choose_surface_format`. -/
def preferred_surface_format : SurfaceFormatKHR :=
  { format := B8G8R8A8_SRGB, color_space := SRGB_NONLINEAR }

/-- A discrete adapter with maximum 2D image dimension 0 that meets every
eligibility requirement; its score is 1000. -/
def devDiscreteDim0 : PhysDev :=
  { device_type_discrete := true
    max_image_dimension2_d := 0
    geometry_shader := true
    graphics_family := some 0
    has_device_extensions := true
    formats_nonempty := true
    present_modes_nonempty := true }

/-- An integrated adapter with maximum 2D image dimension 1000 that meets
every eligibility requirement; its score is 1000. -/
def devIntegratedDim1000 : PhysDev :=
  { device_type_discrete := false
    max_image_dimension2_d := 1000
    geometry_shader := true
    graphics_family := some 0
    has_device_extensions := true
    formats_nonempty := true
    present_modes_nonempty := true }

/-- An integrated adapter with maximum 2D image dimension 2000 that meets
every eligibility requirement; its score is 2000. -/
def devIntegratedDim2000 : PhysDev :=
  { device_type_discrete := false
    max_image_dimension2_d := 2000
    geometry_shader := true
    graphics_family := some 0
    has_device_extensions := true
    formats_nonempty := true
    present_modes_nonempty := true }

/-- An eligible discrete adapter with maximum 2D image dimension 4096. -/
def devDiscreteDim4096 : PhysDev :=
  { device_type_discrete := true
    max_image_dimension2_d := 4096
    geometry_shader := true
    graphics_family := some 0
    has_device_extensions := true
    formats_nonempty := true
    present_modes_nonempty := true }

/-- An eligible integrated adapter with maximum 2D image dimension 100. -/
def devIntegratedDim100 : PhysDev :=
  { device_type_discrete := false
    max_image_dimension2_d := 100
    geometry_shader := true
    graphics_family := some 0
    has_device_extensions := true
    formats_nonempty := true
    present_modes_nonempty := true }

/-- Claim C1 (code bug): the code's image-count computation
`min(max_image_count, min_image_count + 1).max(min_image_count + 1)`
always evaluates to `min_image_count + 1`: the trailing `.max` cancels the
clamp to `max_image_count`.  At the spec's own test case
`min_image_count = 2, max_image_count = 2` the code yields 3, not the
claimed 2, and 3 exceeds the surface's maximum image count. -/
theorem image_count_code_bug :
    (∀ a b : Nat, image_count a b = u32 (a + 1)) ∧
    image_count 2 0 = 3 ∧ image_count 2 2 = 3 := by
  refine ⟨?_, by decide, by decide⟩
  intro a b
  exact Nat.max_eq_right (Nat.min_le_right _ _)

theorem find_memory_type_loop_some (tf props : Nat) :
    ∀ (rest : List Nat) (i0 i : Nat),
      find_memory_type_loop tf props i0 rest = some i →
      ∃ k, i = i0 + k ∧ k < rest.length ∧
        (tf &&& (1 <<< (i0 + k)) ≠ 0 ∧ (rest.getD k 0) &&& props = props) ∧
        ∀ j, j < k →
          ¬(tf &&& (1 <<< (i0 + j)) ≠ 0 ∧ (rest.getD j 0) &&& props = props) := by
  intro rest
  induction rest with
  | nil => intro i0 i h; simp [find_memory_type_loop] at h
  | cons f r ih =>
    intro i0 i h
    unfold find_memory_type_loop at h
    by_cases hc : tf &&& (1 <<< i0) ≠ 0 ∧ f &&& props = props
    · rw [if_pos hc] at h
      have hii : i = i0 := by simpa using h.symm
      subst hii
      exact ⟨0, by omega, by simp, by simpa using hc, by omega⟩
    · rw [if_neg hc] at h
      obtain ⟨k, hk1, hk2, hk3, hk4⟩ := ih (i0 + 1) i h
      refine ⟨k + 1, by omega, by simp; omega, ?_, ?_⟩
      · have : i0 + (k + 1) = i0 + 1 + k := by omega
        rw [this]
        simpa using hk3
      · intro j hj
        match j with
        | 0 => simpa using hc
        | j' + 1 =>
          have : i0 + (j' + 1) = i0 + 1 + j' := by omega
          rw [this]
          simpa using hk4 j' (by omega)

theorem find_memory_type_loop_none (tf props : Nat) :
    ∀ (rest : List Nat) (i0 : Nat),
      find_memory_type_loop tf props i0 rest = none →
      ∀ k, k < rest.length →
        ¬(tf &&& (1 <<< (i0 + k)) ≠ 0 ∧ (rest.getD k 0) &&& props = props) := by
  intro rest
  induction rest with
  | nil => intro i0 _ k hk; simp at hk
  | cons f r ih =>
    intro i0 h k hk
    unfold find_memory_type_loop at h
    by_cases hc : tf &&& (1 <<< i0) ≠ 0 ∧ f &&& props = props
    · rw [if_pos hc] at h; exact absurd h (by simp)
    · rw [if_neg hc] at h
      match k with
      | 0 => simpa using hc
      | k' + 1 =>
        have : i0 + (k' + 1) = i0 + 1 + k' := by omega
        rw [this]
        simpa using ih (i0 + 1) h k' (by simpa using hk)

/-- Claim C5: `find_memory_type` scans the memory-type list in index order
and returns the first index whose bit is set in the filter and whose
property flags contain the required flags; it returns the error exactly
when no index qualifies. -/
theorem find_memory_type_spec (tf props : Nat) (mts : List Nat) :
    (∀ i, find_memory_type tf props mts = Except.ok i →
       memSuitable tf props mts i ∧ ∀ j, j < i → ¬ memSuitable tf props mts j) ∧
    ((∃ e, find_memory_type tf props mts = Except.error e) ↔
       ∀ i, ¬ memSuitable tf props mts i) := by
  constructor
  · intro i h
    unfold find_memory_type at h
    cases hl : find_memory_type_loop tf props 0 mts with
    | none => rw [hl] at h; exact absurd h (by simp)
    | some i0 =>
      rw [hl] at h
      have hii : i0 = i := by simpa using h
      subst hii
      obtain ⟨k, hk1, hk2, hk3, hk4⟩ := find_memory_type_loop_some tf props mts 0 i0 hl
      simp only [Nat.zero_add] at hk1 hk3 hk4
      subst hk1
      constructor
      · exact ⟨hk2, hk3⟩
      · intro j hj hsj
        exact hk4 j hj ⟨hsj.2.1, hsj.2.2⟩
  · constructor
    · rintro ⟨e, he⟩ i hsi
      unfold find_memory_type at he
      cases hl : find_memory_type_loop tf props 0 mts with
      | some i0 => rw [hl] at he; exact absurd he (by simp)
      | none =>
        have hn := find_memory_type_loop_none tf props mts 0 hl i hsi.1
        simp only [Nat.zero_add] at hn
        exact hn ⟨hsi.2.1, hsi.2.2⟩
    · intro hall
      unfold find_memory_type
      cases hl : find_memory_type_loop tf props 0 mts with
      | none => exact ⟨_, rfl⟩
      | some i0 =>
        obtain ⟨k, hk1, hk2, hk3, hk4⟩ := find_memory_type_loop_some tf props mts 0 i0 hl
        simp only [Nat.zero_add] at hk1 hk3
        subst hk1
        exact absurd ⟨hk2, hk3⟩ (hall i0)

/-- Witness for C5 at the spec's example: filter `0b0110` with a
memory-type list where only index 2 has the required property flags. -/
theorem find_memory_type_spec_witness :
    memSuitable 6 1 [2, 2, 1, 1] 2 ∧ ∀ j, j < 2 → ¬ memSuitable 6 1 [2, 2, 1, 1] j :=
  (find_memory_type_spec 6 1 [2, 2, 1, 1]).1 2 rfl

theorem preferredFormat_iff (f : SurfaceFormatKHR) :
    preferredFormat f = true ↔ f = preferred_surface_format := by
  cases f
  simp [preferredFormat, preferred_surface_format, SurfaceFormatKHR.mk.injEq]

theorem findPreferred_of_mem {l : List SurfaceFormatKHR}
    (h : preferred_surface_format ∈ l) :
    findPreferred l = some preferred_surface_format := by
  induction l with
  | nil => simp at h
  | cons f rest ih =>
    unfold findPreferred
    by_cases hf : preferredFormat f = true
    · rw [if_pos hf, (preferredFormat_iff f).mp hf]
    · rw [if_neg hf]
      rcases List.mem_cons.mp h with h1 | h1
      · exact absurd ((preferredFormat_iff f).mpr h1.symm) hf
      · exact ih h1

theorem findPreferred_of_not_mem {l : List SurfaceFormatKHR}
    (h : preferred_surface_format ∉ l) :
    findPreferred l = none := by
  induction l with
  | nil => rfl
  | cons f rest ih =>
    unfold findPreferred
    by_cases hf : preferredFormat f = true
    · have hmem : preferred_surface_format ∈ f :: rest := by
        rw [← (preferredFormat_iff f).mp hf]
        exact List.mem_cons_self f rest
      exact absurd hmem h
    · rw [if_neg hf]
      exact ih (fun hm => h (List.mem_cons_of_mem f hm))

/-- Claim C6: for a non-empty surface-format list, selection returns the
B8G8R8A8_SRGB / SRGB_NONLINEAR entry whenever one is present anywhere in
the list, and the first entry otherwise. -/
theorem choose_surface_format_spec (l : List SurfaceFormatKHR) (h : l ≠ []) :
    choose_surface_format l =
      some (if preferred_surface_format ∈ l then preferred_surface_format
            else l.head h) := by
  by_cases hm : preferred_surface_format ∈ l
  · rw [if_pos hm]
    unfold choose_surface_format
    rw [findPreferred_of_mem hm]
  · rw [if_neg hm]
    unfold choose_surface_format
    rw [findPreferred_of_not_mem hm, List.head?_eq_head h]

/-- Witness for C6 at the spec's example list `[{RGBA8_UNORM, sRGB}]`:
no preferred entry, so the first (only) entry is returned. -/
theorem choose_surface_format_spec_witness :
    choose_surface_format [{ format := R8G8B8A8_UNORM, color_space := SRGB_NONLINEAR }] =
      some { format := R8G8B8A8_UNORM, color_space := SRGB_NONLINEAR } := by
  have h := choose_surface_format_spec
    [{ format := R8G8B8A8_UNORM, color_space := SRGB_NONLINEAR }] (by simp)
  simpa using h

theorem length_foldl_push {α β : Type} (f : β → α) :
    ∀ (l : List β) (acc : List α),
      (l.foldl (fun acc x => acc ++ [f x]) acc).length = acc.length + l.length := by
  intro l
  induction l with
  | nil => intro acc; simp
  | cons x xs ih =>
    intro acc
    simp only [List.foldl_cons]
    rw [ih (acc ++ [f x])]
    simp
    omega

/-- Claim C7: after swapchain construction (`new`, then depth resources,
then framebuffers) and after every `recreate`, the swapchain holds exactly
one image view and one framebuffer per presentable image, and `recreate`
destroys every old framebuffer and image view before the new chain is
built. -/
theorem swapchain_length_invariant :
    (∀ images : List Nat,
      (create_framebuffers (create_depth_ressources (VkSwapchain_new images))).image_views.length =
        (create_framebuffers (create_depth_ressources (VkSwapchain_new images))).images.length ∧
      (create_framebuffers (create_depth_ressources (VkSwapchain_new images))).framebuffers.length =
        (create_framebuffers (create_depth_ressources (VkSwapchain_new images))).images.length) ∧
    (∀ (old : VkSwapchainSt) (newImages : List Nat),
      (recreate old newImages).2.image_views.length =
        (recreate old newImages).2.images.length ∧
      (recreate old newImages).2.framebuffers.length =
        (recreate old newImages).2.images.length ∧
      (recreate old newImages).1 = old.framebuffers ++ old.image_views) := by
  have hviews : ∀ images : List Nat, (create_image_views images).length = images.length := by
    intro images
    unfold create_image_views
    rw [length_foldl_push]
    simp
  have hmain : ∀ images : List Nat,
      (create_framebuffers (create_depth_ressources (VkSwapchain_new images))).image_views.length =
        (create_framebuffers (create_depth_ressources (VkSwapchain_new images))).images.length ∧
      (create_framebuffers (create_depth_ressources (VkSwapchain_new images))).framebuffers.length =
        (create_framebuffers (create_depth_ressources (VkSwapchain_new images))).images.length := by
    intro images
    unfold create_framebuffers create_depth_ressources VkSwapchain_new
    constructor
    · simpa using hviews images
    · simp only []
      rw [length_foldl_push]
      simpa using hviews images
  refine ⟨hmain, ?_⟩
  intro old newImages
  exact ⟨(hmain newImages).1, (hmain newImages).2, rfl⟩

/-- Claim C8: starting from slot 0, k frame-advance steps with
`MAX_FRAMES_IN_FLIGHT = 2` slots leave the active slot at `k mod 2` (in
particular 1 after 5 steps), and every `draw_frame` call that reaches the
submit/present path advances the slot index by exactly one modulo 2. -/
theorem frame_slot_cycling :
    (∀ k : Nat, advance_frame^[k] 0 = k % 2) ∧
    advance_frame^[5] 0 = 1 ∧
    (∀ (s : DrawState) (idx : Nat),
      (draw_frame s (AcquireResult.success idx false)).map (fun r => r.1.frame) =
        some ((s.frame + 1) % MAX_FRAMES_IN_FLIGHT)) := by
  have h1 : ∀ k : Nat, advance_frame^[k] 0 = k % 2 := by
    intro k
    induction k with
    | zero => rfl
    | succ n ih =>
      rw [Function.iterate_succ_apply', ih]
      unfold advance_frame MAX_FRAMES_IN_FLIGHT
      omega
  refine ⟨h1, by rw [h1], ?_⟩
  intro s idx
  simp [draw_frame]

/-- Claim C9: the `size` field stored by `VkBuffer::new` is the element
count of the uploaded data, and `record_command_buffer` records exactly
one indexed draw, whose index count is that element count. -/
theorem full_index_draw (indices : List Nat) (ctx : RecordCtx) (image_index : Nat)
    (hbuf : ctx.index_buffer = VkBuffer_new indices)
    (hlen : indices.length < 2 ^ 32) :
    (VkBuffer_new indices).size = indices.length ∧
    (record_command_buffer ctx image_index).filter isDrawCmd =
      [Cmd.drawIndexed indices.length 1 0 0 0] := by
  refine ⟨rfl, ?_⟩
  have hlen32 : indices.length % 2 ^ 32 = indices.length := Nat.mod_eq_of_lt hlen
  simp [record_command_buffer, isDrawCmd, hbuf, VkBuffer_new, u32, List.filter,
    hlen32]
  exact lt_of_lt_of_eq hlen (by norm_num)

/-- Witness for C9: three uploaded indices give one draw of index count 3. -/
theorem full_index_draw_witness :
    (VkBuffer_new [0, 1, 2]).size = ([0, 1, 2] : List Nat).length ∧
    (record_command_buffer
        { frame := 0, index_buffer := VkBuffer_new [0, 1, 2],
          framebuffers := [7], extent_w := 640, extent_h := 480 } 0).filter isDrawCmd =
      [Cmd.drawIndexed ([0, 1, 2] : List Nat).length 1 0 0 0] :=
  full_index_draw [0, 1, 2] _ 0 rfl (by decide)

/-- Claim C4: when the acquire reports out-of-date or a suboptimal
success, `draw_frame` recreates the swapchain and returns without
resetting the slot's fence, without recording or submitting a command
buffer, without presenting, and without surfacing an error; the frame-slot
index is unchanged, and the slot's fence is only observed (waited to
signaled), never reset. -/
theorem draw_frame_skip_on_bad_acquire (s : DrawState) (acq : AcquireResult)
    (h : acq = AcquireResult.outOfDate ∨ ∃ idx, acq = AcquireResult.success idx true) :
    ∃ evs, draw_frame s acq =
        some ({ frame := s.frame, fences := s.fences.set s.frame FenceSt.signaled }, evs) ∧
      Ev.recreateSwapchain ∈ evs ∧
      (∀ i, Ev.resetFence i ∉ evs) ∧
      (∀ i j, Ev.recordCB i j ∉ evs) ∧
      (∀ i, Ev.submit i ∉ evs) ∧
      (∀ i, Ev.present i ∉ evs) := by
  have hsplit : draw_frame s acq =
      some ({ frame := s.frame, fences := s.fences.set s.frame FenceSt.signaled },
        [Ev.waitFence s.frame (s.fences.getD s.frame FenceSt.signaled == FenceSt.pending),
         Ev.acquireImage, Ev.recreateSwapchain]) := by
    rcases h with h | ⟨idx, h⟩ <;> subst h <;> simp [draw_frame, fenceWait]
  refine ⟨_, hsplit, ?_, ?_, ?_, ?_, ?_⟩ <;> simp

theorem fence_getD_set_signaled (l : List FenceSt) (f slot : Nat)
    (h : (l.set f FenceSt.signaled).getD slot FenceSt.signaled = FenceSt.pending) :
    slot ≠ f ∧ l.getD slot FenceSt.signaled = FenceSt.pending := by
  by_cases hef : slot = f
  · subst hef
    by_cases hlt : slot < l.length
    · simp [List.getD, List.getElem?_set_self', List.getElem?_eq_getElem, hlt] at h
    · rw [List.getD_eq_default] at h
      · simp at h
      · simpa using Nat.le_of_not_lt hlt
  · refine ⟨hef, ?_⟩
    simpa [List.getD, List.getElem?_set_ne (fun he => hef he.symm)] using h

theorem fence_getD_set_pending (l : List FenceSt) (f slot : Nat)
    (h : (l.set f FenceSt.pending).getD slot FenceSt.signaled = FenceSt.pending) :
    slot = f ∨ l.getD slot FenceSt.signaled = FenceSt.pending := by
  by_cases hef : slot = f
  · exact Or.inl hef
  · refine Or.inr ?_
    simpa [List.getD, List.getElem?_set_ne (fun he => hef he.symm)] using h

theorem runHist_cons_outOfDate (s : DrawState) (rest : List AcquireResult) :
    runHist s (AcquireResult.outOfDate :: rest) =
      (runHist (⟨s.frame, s.fences.set s.frame FenceSt.signaled⟩ : DrawState) rest).map
        (fun p => (p.1,
          CallRec.waited s.frame
            (s.fences.getD s.frame FenceSt.signaled == FenceSt.pending) :: p.2)) := by
  cases hrest : runHist (⟨s.frame, s.fences.set s.frame FenceSt.signaled⟩ :
      DrawState) rest with
  | none => simp [runHist, draw_frame, fenceWait, evToRec, hrest]
  | some p => simp [runHist, draw_frame, fenceWait, evToRec, hrest]

theorem runHist_cons_suboptimal (s : DrawState) (idx : Nat) (rest : List AcquireResult) :
    runHist s (AcquireResult.success idx true :: rest) =
      (runHist (⟨s.frame, s.fences.set s.frame FenceSt.signaled⟩ : DrawState) rest).map
        (fun p => (p.1,
          CallRec.waited s.frame
            (s.fences.getD s.frame FenceSt.signaled == FenceSt.pending) :: p.2)) := by
  cases hrest : runHist (⟨s.frame, s.fences.set s.frame FenceSt.signaled⟩ :
      DrawState) rest with
  | none => simp [runHist, draw_frame, fenceWait, evToRec, hrest]
  | some p => simp [runHist, draw_frame, fenceWait, evToRec, hrest]

theorem runHist_cons_submit (s : DrawState) (idx : Nat) (rest : List AcquireResult) :
    runHist s (AcquireResult.success idx false :: rest) =
      (runHist (⟨(s.frame + 1) % MAX_FRAMES_IN_FLIGHT,
          s.fences.set s.frame FenceSt.pending⟩ : DrawState) rest).map
        (fun p => (p.1,
          CallRec.waited s.frame
            (s.fences.getD s.frame FenceSt.signaled == FenceSt.pending) ::
            CallRec.submitted s.frame :: p.2)) := by
  cases hrest : runHist (⟨(s.frame + 1) % MAX_FRAMES_IN_FLIGHT,
      s.fences.set s.frame FenceSt.pending⟩ : DrawState) rest with
  | none => simp [runHist, draw_frame, fenceWait, evToRec, hrest]
  | some p => simp [runHist, draw_frame, fenceWait, evToRec, hrest]

theorem runHist_good_aux :
    ∀ (acqs : List AcquireResult) (s : DrawState) (subs : List Nat),
      (∀ slot, s.fences.getD slot FenceSt.signaled = FenceSt.pending → slot ∈ subs) →
      ∀ st h, runHist s acqs = some (st, h) → goodHist h subs := by
  intro acqs
  induction acqs with
  | nil =>
    intro s subs hinv st h hr
    simp [runHist] at hr
    rw [hr.2]
    simp [goodHist]
  | cons a rest ih =>
    intro s subs hinv st h hr
    cases a with
    | otherErr => simp [runHist, draw_frame] at hr
    | outOfDate =>
      rw [runHist_cons_outOfDate] at hr
      cases hrest : runHist (⟨s.frame, s.fences.set s.frame FenceSt.signaled⟩ :
          DrawState) rest with
      | none => rw [hrest] at hr; exact absurd hr (by simp)
      | some p =>
        rw [hrest] at hr
        simp only [Option.map_some'] at hr
        have hh : h = CallRec.waited s.frame
            (s.fences.getD s.frame FenceSt.signaled == FenceSt.pending) :: p.2 :=
          (Prod.mk.injEq _ _ _ _ ▸ (Option.some.inj hr)).2.symm
        subst hh
        have hnext : goodHist p.2 subs := by
          refine ih _ subs ?_ p.1 p.2 (by rw [hrest])
          intro slot hp
          exact hinv slot (fence_getD_set_signaled s.fences s.frame slot hp).2
        cases hb : s.fences.getD s.frame FenceSt.signaled == FenceSt.pending with
        | false => simpa [goodHist] using hnext
        | true =>
          have hpend : s.fences.getD s.frame FenceSt.signaled = FenceSt.pending := by
            simpa using hb
          exact ⟨hinv s.frame hpend, hnext⟩
    | success idx subopt =>
      cases subopt with
      | true =>
        rw [runHist_cons_suboptimal] at hr
        cases hrest : runHist (⟨s.frame, s.fences.set s.frame FenceSt.signaled⟩ :
            DrawState) rest with
        | none => rw [hrest] at hr; exact absurd hr (by simp)
        | some p =>
          rw [hrest] at hr
          simp only [Option.map_some'] at hr
          have hh : h = CallRec.waited s.frame
              (s.fences.getD s.frame FenceSt.signaled == FenceSt.pending) :: p.2 :=
            (Prod.mk.injEq _ _ _ _ ▸ (Option.some.inj hr)).2.symm
          subst hh
          have hnext : goodHist p.2 subs := by
            refine ih _ subs ?_ p.1 p.2 (by rw [hrest])
            intro slot hp
            exact hinv slot (fence_getD_set_signaled s.fences s.frame slot hp).2
          cases hb : s.fences.getD s.frame FenceSt.signaled == FenceSt.pending with
          | false => simpa [goodHist] using hnext
          | true =>
            have hpend : s.fences.getD s.frame FenceSt.signaled = FenceSt.pending := by
              simpa using hb
            exact ⟨hinv s.frame hpend, hnext⟩
      | false =>
        rw [runHist_cons_submit] at hr
        cases hrest : runHist (⟨(s.frame + 1) % MAX_FRAMES_IN_FLIGHT,
            s.fences.set s.frame FenceSt.pending⟩ : DrawState) rest with
        | none => rw [hrest] at hr; exact absurd hr (by simp)
        | some p =>
          rw [hrest] at hr
          simp only [Option.map_some'] at hr
          have hh : h = CallRec.waited s.frame
              (s.fences.getD s.frame FenceSt.signaled == FenceSt.pending) ::
              CallRec.submitted s.frame :: p.2 :=
            (Prod.mk.injEq _ _ _ _ ▸ (Option.some.inj hr)).2.symm
          subst hh
          have hnext : goodHist p.2 (s.frame :: subs) := by
            refine ih _ (s.frame :: subs) ?_ p.1 p.2 (by rw [hrest])
            intro slot hp
            rcases fence_getD_set_pending s.fences s.frame slot hp with he | hp2
            · rw [he]; exact List.mem_cons_self _ _
            · exact List.mem_cons_of_mem _ (hinv slot hp2)
          cases hb : s.fences.getD s.frame FenceSt.signaled == FenceSt.pending with
          | false => simpa [goodHist] using hnext
          | true =>
            have hpend : s.fences.getD s.frame FenceSt.signaled = FenceSt.pending := by
              simpa using hb
            exact ⟨hinv s.frame hpend, hnext⟩

/-- Claim C10: every per-frame fence is created signaled
(`FenceCreateFlags::SIGNALED` in `VkSyncObjects::new`), and in every run of
`draw_frame` calls from the initial context, a fence wait blocks only when
an earlier call in the run submitted work on the same slot; in particular
the first use of each slot returns immediately. -/
theorem fences_created_signaled :
    VkSyncObjects_new_fences = List.replicate MAX_FRAMES_IN_FLIGHT FenceSt.signaled ∧
    (∀ acqs st h, runHist initDrawState acqs = some (st, h) → goodHist h []) := by
  refine ⟨rfl, ?_⟩
  intro acqs st h hr
  refine runHist_good_aux acqs initDrawState [] ?_ st h hr
  intro slot hp
  have hs : initDrawState.fences.getD slot FenceSt.signaled = FenceSt.signaled := by
    match slot with
    | 0 => rfl
    | 1 => rfl
    | n + 2 => rfl
  rw [hs] at hp
  exact absurd hp (by simp)

/-- Witness for C10: three submitting frames; the third call reuses slot 0
and blocks, and its slot was indeed submitted earlier in the history. -/
theorem fences_created_signaled_witness :
    goodHist [CallRec.waited 0 false, CallRec.submitted 0, CallRec.waited 1 false,
              CallRec.submitted 1, CallRec.waited 0 true, CallRec.submitted 0] [] :=
  fences_created_signaled.2
    [AcquireResult.success 0 false, AcquireResult.success 1 false,
     AcquireResult.success 0 false]
    { frame := 1, fences := [FenceSt.pending, FenceSt.pending] } _ rfl

/-- Witness for C4: an out-of-date acquire in the initial context. -/
theorem draw_frame_skip_on_bad_acquire_witness :
    ∃ evs, draw_frame initDrawState AcquireResult.outOfDate =
        some ({ frame := initDrawState.frame,
                fences := initDrawState.fences.set initDrawState.frame FenceSt.signaled }, evs) ∧
      Ev.recreateSwapchain ∈ evs ∧
      (∀ i, Ev.resetFence i ∉ evs) ∧
      (∀ i j, Ev.recordCB i j ∉ evs) ∧
      (∀ i, Ev.submit i ∉ evs) ∧
      (∀ i, Ev.present i ∉ evs) :=
  draw_frame_skip_on_bad_acquire initDrawState AcquireResult.outOfDate (Or.inl rfl)


theorem insertCand_ne_nil (m : List (Int × PhysDev)) (kv : Int × PhysDev) :
    insertCand m kv ≠ [] := by
  cases m with
  | nil => simp [insertCand]
  | cons hd tl =>
    obtain ⟨k, v⟩ := hd
    unfold insertCand
    by_cases h1 : kv.1 < k
    · simp [h1]
    · by_cases h2 : kv.1 = k <;> simp [h1, h2]

theorem head?_insertCand (kv : Int × PhysDev) (m : List (Int × PhysDev)) :
    (insertCand m kv).head? = some kv ∨ (insertCand m kv).head? = m.head? := by
  cases m with
  | nil => left; rfl
  | cons hd tl =>
    obtain ⟨k, v⟩ := hd
    unfold insertCand
    by_cases h1 : kv.1 < k
    · left; rw [if_pos h1]; rfl
    · rw [if_neg h1]
      by_cases h2 : kv.1 = k
      · left; rw [if_pos h2]; rfl
      · right; rw [if_neg h2]; rfl

theorem chain'_insertCand (kv : Int × PhysDev) :
    ∀ m : List (Int × PhysDev), List.Chain' (fun a b => a.1 < b.1) m →
      List.Chain' (fun a b => a.1 < b.1) (insertCand m kv) := by
  intro m
  induction m with
  | nil => intro _; simp [insertCand]
  | cons hd tl ih =>
    intro hch
    obtain ⟨k, v⟩ := hd
    unfold insertCand
    by_cases h1 : kv.1 < k
    · rw [if_pos h1]
      exact List.Chain'.cons h1 hch
    · rw [if_neg h1]
      by_cases h2 : kv.1 = k
      · rw [if_pos h2]
        cases tl with
        | nil => simp
        | cons hd2 tl2 =>
          refine List.Chain'.cons ?_ (List.chain'_cons.mp hch).2
          rw [h2]
          exact (List.chain'_cons.mp hch).1
      · rw [if_neg h2]
        have hk : k < kv.1 := lt_of_le_of_ne (not_lt.mp h1) (fun he => h2 he.symm)
        refine List.chain'_cons'.mpr ⟨?_, ih hch.tail⟩
        intro y hy
        rcases head?_insertCand kv tl with hh | hh
        · rw [hh] at hy
          simp at hy
          rw [← hy]
          exact hk
        · rw [hh] at hy
          cases tl with
          | nil => simp at hy
          | cons hd2 tl2 =>
            simp at hy
            rw [← hy]
            exact (List.chain'_cons.mp hch).1

theorem chain'_first_le_getLast :
    ∀ (tl : List (Int × PhysDev)) (k : Int) (v : PhysDev),
      List.Chain' (fun a b => a.1 < b.1) ((k, v) :: tl) →
      ∀ last, ((k, v) :: tl).getLast? = some last → k ≤ last.1 := by
  intro tl
  induction tl with
  | nil =>
    intro k v _ last hlast
    simp at hlast
    rw [← hlast]
  | cons hd2 tl2 ih =>
    intro k v hch last hlast
    obtain ⟨k2, v2⟩ := hd2
    rw [List.getLast?_cons_cons] at hlast
    have hk2 : k < k2 := (List.chain'_cons.mp hch).1
    have := ih k2 v2 (List.chain'_cons.mp hch).2 last hlast
    omega

theorem getLast?_insertCand (kv : Int × PhysDev) :
    ∀ m : List (Int × PhysDev), List.Chain' (fun a b => a.1 < b.1) m →
      (insertCand m kv).getLast? = some (latestO m.getLast? kv) := by
  intro m
  induction m with
  | nil => intro _; simp [insertCand, latestO]
  | cons hd tl ih =>
    intro hch
    obtain ⟨k, v⟩ := hd
    unfold insertCand
    by_cases h1 : kv.1 < k
    · rw [if_pos h1, List.getLast?_cons_cons]
      cases hlast : ((k, v) :: tl).getLast? with
      | none => exact absurd hlast (by simp)
      | some last =>
        have hkle : k ≤ last.1 := chain'_first_le_getLast tl k v hch last hlast
        have hnle : ¬ (last.1 ≤ kv.1) := by omega
        simp [latestO, hnle]
    · rw [if_neg h1]
      by_cases h2 : kv.1 = k
      · rw [if_pos h2]
        cases tl with
        | nil =>
          have : k ≤ kv.1 := le_of_eq h2.symm
          simp [latestO, this]
        | cons hd2 tl2 =>
          rw [List.getLast?_cons_cons, List.getLast?_cons_cons]
          cases hlast : (hd2 :: tl2).getLast? with
          | none => exact absurd hlast (by simp)
          | some last =>
            have hk2 : k < hd2.1 := (List.chain'_cons.mp hch).1
            obtain ⟨k2, v2⟩ := hd2
            have hle : k2 ≤ last.1 :=
              chain'_first_le_getLast tl2 k2 v2 (List.chain'_cons.mp hch).2 last hlast
            have hnle : ¬ (last.1 ≤ kv.1) := by
              simp only at hk2
              omega
            simp [latestO, hnle]
      · rw [if_neg h2]
        have hk : k < kv.1 := lt_of_le_of_ne (not_lt.mp h1) (fun he => h2 he.symm)
        obtain ⟨x, xs, hxe⟩ := List.exists_cons_of_ne_nil (insertCand_ne_nil tl kv)
        rw [hxe, List.getLast?_cons_cons, ← hxe, ih hch.tail]
        cases tl with
        | nil =>
          have : k ≤ kv.1 := le_of_lt hk
          simp [latestO, this]
        | cons hd2 tl2 =>
          rw [List.getLast?_cons_cons]

theorem bestSoFar_append (xs : List PhysDev) (x : PhysDev) :
    bestSoFar (xs ++ [x]) = bestStep (bestSoFar xs) x := by
  unfold bestSoFar
  rw [List.foldl_append]
  simp

theorem build_getLast_eq_bestSoFar :
    ∀ (ds : List PhysDev) (m : List (Int × PhysDev)) (b : Option (Int × PhysDev)),
      List.Chain' (fun a b => a.1 < b.1) m → m.getLast? = b →
      (ds.foldl
        (fun m d =>
          if 0 < rate_device d ∧ is_device_suitable d = true
          then insertCand m (rate_device d, d)
          else m)
        m).getLast? = ds.foldl bestStep b := by
  intro ds
  induction ds with
  | nil =>
    intro m b hch hlast
    simpa using hlast
  | cons d rest ih =>
    intro m b hch hlast
    simp only [List.foldl_cons]
    by_cases hd : 0 < rate_device d ∧ is_device_suitable d = true
    · rw [if_pos hd]
      have hstep : bestStep b d = some (latestO b (rate_device d, d)) := by
        unfold bestStep
        rw [if_pos hd]
      rw [hstep]
      refine ih (insertCand m (rate_device d, d)) (some (latestO b (rate_device d, d)))
        (chain'_insertCand _ m hch) ?_
      rw [getLast?_insertCand _ m hch, hlast]
    · rw [if_neg hd]
      have hstep : bestStep b d = b := by
        unfold bestStep
        rw [if_neg hd]
      rw [hstep]
      exact ih m b hch hlast

theorem choose_eq_of_bestSoFar (ds : List PhysDev) :
    choose_physical_device ds =
      if ds.isEmpty then Except.error "No Vulkan-compatible physical devices found."
      else
        match bestSoFar ds with
        | some (_, d) => Except.ok d
        | none => Except.error "Failed to find a suitable GPU." := by
  unfold choose_physical_device
  have hb : (build_candidates ds).getLast? = bestSoFar ds := by
    unfold build_candidates bestSoFar
    exact build_getLast_eq_bestSoFar ds [] none (by simp) rfl
  rw [hb]

theorem bestSoFar_none :
    ∀ ds : List PhysDev, bestSoFar ds = none ↔ ∀ e ∈ ds, ¬ eligible e := by
  intro ds
  induction ds using List.reverseRecOn with
  | nil => simp [bestSoFar]
  | append_singleton xs x ih =>
    rw [bestSoFar_append]
    constructor
    · intro h
      by_cases hx : eligible x
      · have hx' : 0 < rate_device x ∧ is_device_suitable x = true := hx
        unfold bestStep at h
        rw [if_pos hx'] at h
        exact absurd h (by simp)
      · have hx' : ¬ (0 < rate_device x ∧ is_device_suitable x = true) := hx
        unfold bestStep at h
        rw [if_neg hx'] at h
        intro e he
        rcases List.mem_append.mp he with he | he
        · exact (ih.mp h) e he
        · simp at he
          rw [he]
          exact hx
    · intro h
      have hb : bestSoFar xs = none :=
        ih.mpr (fun e he => h e (List.mem_append.mpr (Or.inl he)))
      have hx : ¬ eligible x := h x (List.mem_append.mpr (Or.inr (by simp)))
      have hx' : ¬ (0 < rate_device x ∧ is_device_suitable x = true) := hx
      rw [hb]
      unfold bestStep
      rw [if_neg hx']

theorem bestSoFar_spec :
    ∀ (ds : List PhysDev) (k : Int) (d : PhysDev), bestSoFar ds = some (k, d) →
      k = rate_device d ∧ eligible d ∧
      (∀ e ∈ ds, eligible e → rate_device e ≤ rate_device d) ∧
      ∃ pre post, ds = pre ++ d :: post ∧
        ∀ e ∈ post, eligible e → rate_device e < rate_device d := by
  intro ds
  induction ds using List.reverseRecOn with
  | nil => intro k d h; simp [bestSoFar] at h
  | append_singleton xs x ih =>
    intro k d h
    rw [bestSoFar_append] at h
    by_cases hx : eligible x
    · have hx' : 0 < rate_device x ∧ is_device_suitable x = true := hx
      unfold bestStep at h
      rw [if_pos hx'] at h
      have hld : latestO (bestSoFar xs) (rate_device x, x) = (k, d) :=
        Option.some.inj h
      cases hbs : bestSoFar xs with
      | none =>
        rw [hbs] at hld
        simp only [latestO] at hld
        obtain ⟨hk, hd2⟩ := Prod.mk.injEq .. ▸ hld
        refine ⟨hk.symm ▸ hd2 ▸ rfl, hd2 ▸ hx, ?_, xs, [], by simp [hd2], by simp⟩
        intro e he hel
        rcases List.mem_append.mp he with he | he
        · exact absurd hel ((bestSoFar_none xs).mp hbs e he)
        · simp at he
          rw [he, ← hd2]
      | some p =>
        obtain ⟨k0, v0⟩ := p
        rw [hbs] at hld
        simp only [latestO] at hld
        obtain ⟨hk0, hel0, hmax0, pre0, post0, hsplit0, hpost0⟩ :=
          ih k0 v0 hbs
        by_cases hcmp : k0 ≤ rate_device x
        · rw [if_pos hcmp] at hld
          obtain ⟨hk, hd2⟩ := Prod.mk.injEq .. ▸ hld
          refine ⟨hk.symm ▸ hd2 ▸ rfl, hd2 ▸ hx, ?_, xs, [], by simp [hd2], by simp⟩
          intro e he hel
          rcases List.mem_append.mp he with he | he
          · have := hmax0 e he hel
            rw [← hd2]
            omega
          · simp at he
            rw [he, ← hd2]
        · rw [if_neg hcmp] at hld
          obtain ⟨hk, hd2⟩ := Prod.mk.injEq .. ▸ hld
          subst hd2
          subst hk
          refine ⟨hk0, hel0, ?_, pre0, post0 ++ [x], by rw [hsplit0]; simp, ?_⟩
          · intro e he hel
            rcases List.mem_append.mp he with he | he
            · exact hmax0 e he hel
            · simp at he
              rw [he]
              omega
          · intro e he hel
            rcases List.mem_append.mp he with he | he
            · exact hpost0 e he hel
            · simp at he
              rw [he]
              omega
    · have hx' : ¬ (0 < rate_device x ∧ is_device_suitable x = true) := hx
      unfold bestStep at h
      rw [if_neg hx'] at h
      obtain ⟨hk0, hel0, hmax0, pre0, post0, hsplit0, hpost0⟩ := ih k d h
      refine ⟨hk0, hel0, ?_, pre0, post0 ++ [x], by rw [hsplit0]; simp, ?_⟩
      · intro e he hel
        rcases List.mem_append.mp he with he | he
        · exact hmax0 e he hel
        · simp at he
          rw [he] at hel
          exact absurd hel hx
      · intro e he hel
        rcases List.mem_append.mp he with he | he
        · exact hpost0 e he hel
        · simp at he
          rw [he] at hel
          exact absurd hel hx



/-- Claim C2 (corrected): `choose_physical_device` returns a highest-scoring
eligible adapter, but on equal highest scores the adapter LATEST in
enumeration order wins, because `BTreeMap::insert` overwrites the entry
with the same score key.  Formally: the selected adapter is eligible, no
eligible adapter scores higher, and no adapter after it in the enumeration
is eligible with a score at least as high. -/
theorem choose_physical_device_highest_tie_latest (ds : List PhysDev) (d : PhysDev)
    (h : choose_physical_device ds = Except.ok d) :
    eligible d ∧
    (∀ e ∈ ds, eligible e → rate_device e ≤ rate_device d) ∧
    ∃ pre post, ds = pre ++ d :: post ∧
      ∀ e ∈ post, eligible e → rate_device e < rate_device d := by
  rw [choose_eq_of_bestSoFar] at h
  by_cases hemp : ds.isEmpty
  · rw [if_pos hemp] at h
    exact absurd h (by simp)
  · rw [if_neg hemp] at h
    cases hbs : bestSoFar ds with
    | none => rw [hbs] at h; exact absurd h (by simp)
    | some p =>
      obtain ⟨k, v⟩ := p
      rw [hbs] at h
      have hv : v = d := by simpa using h
      subst hv
      obtain ⟨_, hel, hmax, pre, post, hsplit, hpost⟩ := bestSoFar_spec ds k v hbs
      exact ⟨hel, hmax, pre, post, hsplit, hpost⟩

/-- Witness for C2 (amended form) on a one-adapter enumeration. -/
theorem choose_physical_device_highest_tie_latest_witness :
    eligible devDiscreteDim4096 ∧
    (∀ e ∈ [devDiscreteDim4096], eligible e →
      rate_device e ≤ rate_device devDiscreteDim4096) ∧
    ∃ pre post, [devDiscreteDim4096] = pre ++ devDiscreteDim4096 :: post ∧
      ∀ e ∈ post, eligible e → rate_device e < rate_device devDiscreteDim4096 :=
  choose_physical_device_highest_tie_latest [devDiscreteDim4096] devDiscreteDim4096 rfl

/-- Counterexample to claim C2 as frozen: two eligible adapters share the
highest score 1000; the code selects the later one in enumeration order,
not the earlier one. -/
theorem choose_physical_device_tie_counterexample :
    eligible devDiscreteDim0 ∧ eligible devIntegratedDim1000 ∧
    rate_device devDiscreteDim0 = rate_device devIntegratedDim1000 ∧
    devDiscreteDim0 ≠ devIntegratedDim1000 ∧
    choose_physical_device [devDiscreteDim0, devIntegratedDim1000] =
      Except.ok devIntegratedDim1000 :=
  ⟨by decide, by decide, by decide, by decide, rfl⟩

theorem i32wrap_eq_self (z : Int) (h1 : -(2 ^ 31) ≤ z) (h2 : z < 2 ^ 31) :
    i32wrap z = z := by
  unfold i32wrap
  have e31 : (2 : Int) ^ 31 = 2147483648 := by norm_num
  have e32 : (2 : Int) ^ 32 = 4294967296 := by norm_num
  rw [Int.emod_eq_of_lt (by omega) (by omega)]
  omega

theorem rate_device_not_disqualified (d : PhysDev)
    (hg : d.geometry_shader = true) (hq : d.graphics_family.isSome = true) :
    ¬ (d.geometry_shader = false ∨ d.graphics_family = none) := by
  rintro (h | h)
  · rw [hg] at h
    exact absurd h (by simp)
  · rw [h] at hq
    exact absurd hq (by simp)

theorem rate_device_discrete (d : PhysDev) (hd : d.device_type_discrete = true)
    (hg : d.geometry_shader = true) (hq : d.graphics_family.isSome = true)
    (hdim : d.max_image_dimension2_d ≤ 2 ^ 31 - 1001) :
    rate_device d = 1000 + (d.max_image_dimension2_d : Int) := by
  unfold rate_device
  rw [if_neg (rate_device_not_disqualified d hg hq), hd]
  have e31 : (2 : Nat) ^ 31 = 2147483648 := by norm_num
  rw [e31] at hdim
  have hd32 : d.max_image_dimension2_d < 2 ^ 32 := by
    have e32 : (2 : Nat) ^ 32 = 4294967296 := by norm_num
    omega
  rw [show u32 d.max_image_dimension2_d = d.max_image_dimension2_d from
    Nat.mod_eq_of_lt hd32]
  rw [show i32ofU32 d.max_image_dimension2_d = (d.max_image_dimension2_d : Int) from by
    unfold i32ofU32
    rw [if_pos (by omega)]]
  simp only [if_true]
  refine i32wrap_eq_self _ (by omega) ?_
  have e31i : (2 : Int) ^ 31 = 2147483648 := by norm_num
  omega

theorem rate_device_integrated (d : PhysDev) (hd : d.device_type_discrete = false)
    (hg : d.geometry_shader = true) (hq : d.graphics_family.isSome = true)
    (hdim : d.max_image_dimension2_d < 2 ^ 31) :
    rate_device d = (d.max_image_dimension2_d : Int) := by
  unfold rate_device
  rw [if_neg (rate_device_not_disqualified d hg hq), hd]
  have e31 : (2 : Nat) ^ 31 = 2147483648 := by norm_num
  rw [e31] at hdim
  have hd32 : d.max_image_dimension2_d < 2 ^ 32 := by
    have e32 : (2 : Nat) ^ 32 = 4294967296 := by norm_num
    omega
  rw [show u32 d.max_image_dimension2_d = d.max_image_dimension2_d from
    Nat.mod_eq_of_lt hd32]
  rw [show i32ofU32 d.max_image_dimension2_d = (d.max_image_dimension2_d : Int) from by
    unfold i32ofU32
    rw [if_pos (by omega)]]
  simp only [Bool.false_eq_true, if_false, zero_add]
  refine i32wrap_eq_self _ (by omega) ?_
  have e31i : (2 : Int) ^ 31 = 2147483648 := by norm_num
  omega

/-- Claim C3 (corrected): with both adapters meeting the minimum
requirements, the discrete adapter scores higher and is selected only when
the integrated adapter's maximum 2D image dimension is less than 1000 plus
the discrete adapter's (and the additions stay in i32 range); it is NOT
selected for every pair of dimensions. -/
theorem discrete_gpu_preference_amended (da db : PhysDev)
    (hda : da.device_type_discrete = true)
    (hdb : db.device_type_discrete = false)
    (hga : da.geometry_shader = true) (hgb : db.geometry_shader = true)
    (hqa : da.graphics_family.isSome = true) (hqb : db.graphics_family.isSome = true)
    (hsa : is_device_suitable da = true) (hsb : is_device_suitable db = true)
    (hdim_a : da.max_image_dimension2_d ≤ 2 ^ 31 - 1001)
    (hdim_b : db.max_image_dimension2_d < 2 ^ 31)
    (hlt : db.max_image_dimension2_d < 1000 + da.max_image_dimension2_d) :
    rate_device db < rate_device da ∧
    choose_physical_device [da, db] = Except.ok da ∧
    choose_physical_device [db, da] = Except.ok da := by
  have hra : rate_device da = 1000 + (da.max_image_dimension2_d : Int) :=
    rate_device_discrete da hda hga hqa hdim_a
  have hrb : rate_device db = (db.max_image_dimension2_d : Int) :=
    rate_device_integrated db hdb hgb hqb hdim_b
  have hlt' : rate_device db < rate_device da := by
    rw [hra, hrb]
    omega
  have hea : eligible da := by
    refine ⟨?_, hsa⟩
    rw [hra]
    omega
  have hea' : 0 < rate_device da ∧ is_device_suitable da = true := hea
  refine ⟨hlt', ?_, ?_⟩
  · have hbs : bestSoFar [da, db] = some (rate_device da, da) := by
      unfold bestSoFar
      simp only [List.foldl_cons, List.foldl_nil]
      have h1 : bestStep none da = some (rate_device da, da) := by
        unfold bestStep
        rw [if_pos hea']
        rfl
      rw [h1]
      by_cases heb : eligible db
      · have heb' : 0 < rate_device db ∧ is_device_suitable db = true := heb
        unfold bestStep
        rw [if_pos heb']
        simp only [latestO]
        rw [if_neg (not_le.mpr hlt')]
      · have heb' : ¬ (0 < rate_device db ∧ is_device_suitable db = true) := heb
        unfold bestStep
        rw [if_neg heb']
    rw [choose_eq_of_bestSoFar,
      if_neg (show ¬([da, db] : List PhysDev).isEmpty = true from fun hc => nomatch hc),
      hbs]
  · have hbs : bestSoFar [db, da] = some (rate_device da, da) := by
      unfold bestSoFar
      simp only [List.foldl_cons, List.foldl_nil]
      by_cases heb : eligible db
      · have heb' : 0 < rate_device db ∧ is_device_suitable db = true := heb
        have h1 : bestStep none db = some (rate_device db, db) := by
          unfold bestStep
          rw [if_pos heb']
          rfl
        rw [h1]
        unfold bestStep
        rw [if_pos hea']
        simp only [latestO]
        rw [if_pos (le_of_lt hlt')]
      · have heb' : ¬ (0 < rate_device db ∧ is_device_suitable db = true) := heb
        have h1 : bestStep none db = none := by
          unfold bestStep
          rw [if_neg heb']
        rw [h1]
        unfold bestStep
        rw [if_pos hea']
        rfl
    rw [choose_eq_of_bestSoFar,
      if_neg (show ¬([db, da] : List PhysDev).isEmpty = true from fun hc => nomatch hc),
      hbs]

/-- Witness for C3 (amended form): discrete with dimension 4096 against
integrated with dimension 100. -/
theorem discrete_gpu_preference_amended_witness :
    rate_device devIntegratedDim100 < rate_device devDiscreteDim4096 ∧
    choose_physical_device [devDiscreteDim4096, devIntegratedDim100] =
      Except.ok devDiscreteDim4096 ∧
    choose_physical_device [devIntegratedDim100, devDiscreteDim4096] =
      Except.ok devDiscreteDim4096 :=
  discrete_gpu_preference_amended devDiscreteDim4096 devIntegratedDim100
    rfl rfl rfl rfl rfl rfl rfl rfl (by decide) (by decide) (by decide)

/-- Counterexample to claim C3 as frozen: an eligible discrete adapter with
maximum dimension 0 scores 1000, an eligible integrated adapter with
maximum dimension 2000 scores 2000, so the integrated adapter outscores the
discrete one and is selected. -/
theorem discrete_gpu_counterexample :
    devDiscreteDim0.device_type_discrete = true ∧
    devIntegratedDim2000.device_type_discrete = false ∧
    eligible devDiscreteDim0 ∧ eligible devIntegratedDim2000 ∧
    rate_device devDiscreteDim0 < rate_device devIntegratedDim2000 ∧
    choose_physical_device [devDiscreteDim0, devIntegratedDim2000] =
      Except.ok devIntegratedDim2000 :=
  ⟨rfl, rfl, by decide, by decide, by decide, rfl⟩


end Scop
